import Mathlib

/-!
Verification development for the CEO simulation repository.

The repository ships two React frontends (a globalization simulation and a
supply-chain simulation) that call a decision-resolution and progression
engine over HTTP.  The engine itself (consequence resolver, progression
tracker, simulation state machine, leaderboard ranker) is not part of the
checked-in sources, so it is modelled here from the design document, while
the facts that are visible in `src/frontend/src/App.js` (the per-decision
type icons, the five-year limit, the six-decision year, the published
40/30/30 scoring breakdown, the 5000 ms result-display delay) are embedded
directly from that file.  Numeric indicator values and scores are modelled
as rationals, experience points and counters as naturals.
-/

namespace CEO

/-- Modelled from the spec: per-indicator static declaration (§4.1, §3
  MetricSet).  The engine source is absent from the repository; the spec
  requires each indicator to declare a valid range (`lo`/`hi`, absent bound
  means unbounded on that side), a higher/lower-is-better polarity flag, a
  share of the outcome score, and a scale mapping raw values onto the
  0–100 component scale.  The resolver consumes these uniformly and never
  branches on `name`. -/
structure IndicatorSpec where
  name : String
  higherIsBetter : Bool
  lo : Option ℚ
  hi : Option ℚ
  weight : ℚ
  scale : ℚ
  deriving Repr, DecidableEq

/-- Modelled from the spec: one tracked indicator, its static declaration
  plus its current numeric value (§3 MetricSet). -/
structure Metric where
  info : IndicatorSpec
  value : ℚ
  deriving Repr, DecidableEq

/-- Modelled from the spec: a MetricSet is a bundle of indicators (§3). -/
abbrev MetricSet := List Metric

/-- Modelled from the spec: a Choice holds a text label and a mapping from
  indicator name to signed delta (§3 Choice). -/
structure Choice where
  label : String
  consequences : List (String × ℚ)
  deriving Repr, DecidableEq

/-- Modelled from the spec: an immutable Scenario template with an ordered
  choice list and a decision category (§3 Scenario). -/
structure Scenario where
  title : String
  decision_type : String
  choices : List Choice
  deriving Repr, DecidableEq

/-- Modelled from the spec: clamp a value into the declared range; a missing
  bound on a side leaves that side unclamped (§4.1). -/
def clampTo (lo hi : Option ℚ) (v : ℚ) : ℚ :=
  let v1 := match lo with
    | some l => max l v
    | none => v
  match hi with
  | some h => min h v1
  | none => v1

/-- Modelled from the spec: the delta a choice declares for the named
  indicator; an indicator not mentioned in the choice gets delta 0 (§4.1). -/
def deltaFor : List (String × ℚ) → String → ℚ
  | [], _ => 0
  | (k, d) :: rest, nm => if k = nm then d else deltaFor rest nm

/-- Modelled from the spec: apply each declared delta additively to the
  matching indicator and re-clamp every bounded indicator
  post-application (§4.1). -/
def applyChoice (conseq : List (String × ℚ)) (m : MetricSet) : MetricSet :=
  m.map (fun ind =>
    { ind with value := clampTo ind.info.lo ind.info.hi (ind.value + deltaFor conseq ind.info.name) })

/-- Modelled from the spec: clamp onto the 0–100 component scale used by the
  outcome score (§4.1). -/
def clamp0100 (v : ℚ) : ℚ := min 100 (max 0 v)

/-- Modelled from the spec: the 0–100 score an indicator contributes, taken
  relative to its declared polarity — a lower-is-better indicator scores
  100 minus its clamped scaled value (§4.1).  Only the declared flags are
  consulted, never the indicator name. -/
def componentScore (ind : Metric) : ℚ :=
  if ind.info.higherIsBetter then clamp0100 (ind.value * ind.info.scale)
  else 100 - clamp0100 (ind.value * ind.info.scale)

/-- Modelled from the spec: the outcome score is the weighted combination of
  the post-decision indicator components (§4.1). -/
def scoreOfMetrics (m : MetricSet) : ℚ :=
  (m.map (fun ind => ind.info.weight * componentScore ind)).sum

/-- Modelled from the spec: the Consequence Resolver —
  `resolve(metrics, choice) -> (MetricSet, outcomeScore)` (§4.1).  It has
  no side effects; the caller commits the result. -/
def resolve (m : MetricSet) (c : Choice) : MetricSet × ℚ :=
  let m2 := applyChoice c.consequences m
  (m2, scoreOfMetrics m2)

/-- Modelled from the spec: per-player progression record (§3
  PlayerProgression). -/
structure PlayerProgression where
  xp : Nat
  level : Nat
  totalDecisions : Nat
  successfulDecisions : Nat
  achievements : List String
  categoryCounts : List (String × Nat)
  deriving Repr, DecidableEq

/-- Modelled from the spec: the delta reported by the Progression Tracker
  (§4.2). -/
structure ProgressionDelta where
  xpGained : Nat
  leveledUp : Bool
  newAchievements : List String
  deriving Repr, DecidableEq

/-- Modelled from the spec: minimum XP floor so every decision yields some
  XP (§4.2). -/
def xpMinFloor : Nat := 10

/-- Modelled from the spec: XP gained is a monotone function of the outcome
  score, proportional with a minimum floor (§4.2). -/
def xpGain (score : ℚ) : Nat := max xpMinFloor (⌊2 * score⌋.toNat)

/-- Modelled from the spec: level is recomputed fresh from cumulative XP via
  a fixed formula — one level per 100 XP, starting at level 1 (§4.2). -/
def levelForXp (xp : Nat) : Nat := xp / 100 + 1

/-- Modelled from the spec: fixed success threshold for the
  successful-decision counter (§4.2). -/
def successThreshold : ℚ := 60

/-- Modelled from the spec: bump the rolling per-category decision
  counter (§3 PlayerProgression). -/
def bumpCategory : List (String × Nat) → String → List (String × Nat)
  | [], c => [(c, 1)]
  | (k, n) :: rest, c =>
      if k = c then (k, n + 1) :: rest else (k, n) :: bumpCategory rest c

/-- Modelled from the spec: an achievement rule is a pure predicate over
  PlayerProgression state, keyed by cumulative counters (§4.2). -/
structure AchievementRule where
  id : String
  cond : PlayerProgression → Bool

/-- Modelled from the spec: the fixed achievement rule set (§4.2); the
  concrete rules are per-ruleset configuration, these stand for the
  supply-chain ruleset. -/
def achievementRules : List AchievementRule :=
  [⟨"first_decision", fun p => decide (1 ≤ p.totalDecisions)⟩,
   ⟨"ten_decisions", fun p => decide (10 ≤ p.totalDecisions)⟩,
   ⟨"five_successes", fun p => decide (5 ≤ p.successfulDecisions)⟩,
   ⟨"level_five", fun p => decide (5 ≤ p.level)⟩]

/-- Modelled from the spec: achievements newly unlocked by the updated
  progression state, skipping any already held (§4.2). -/
def newlyUnlocked (p : PlayerProgression) (prior : List String) : List String :=
  (achievementRules.filter (fun r => r.cond p && !(prior.contains r.id))).map (fun r => r.id)

/-- Modelled from the spec: the Progression Tracker —
  `applyOutcome(progression, outcomeScore, category)` returns the updated
  record and the delta; it cannot fail (§4.2). -/
def applyOutcome (p : PlayerProgression) (score : ℚ) (category : String) :
    PlayerProgression × ProgressionDelta :=
  let gained := xpGain score
  let newXp := p.xp + gained
  let newLevel := levelForXp newXp
  let p1 : PlayerProgression :=
    { xp := newXp
      level := newLevel
      totalDecisions := p.totalDecisions + 1
      successfulDecisions :=
        if successThreshold ≤ score then p.successfulDecisions + 1
        else p.successfulDecisions
      achievements := p.achievements
      categoryCounts := bumpCategory p.categoryCounts category }
  let unlocked := newlyUnlocked p1 p.achievements
  ({ p1 with achievements := p.achievements ++ unlocked },
   { xpGained := gained
     leveledUp := decide (p.level < newLevel)
     newAchievements := unlocked })

/-- Modelled from the spec: fold a sequence of resolved outcomes through the
  Progression Tracker (§8 sequence properties). -/
def runOutcomes (p : PlayerProgression) (l : List (ℚ × String)) : PlayerProgression :=
  l.foldl (fun q sc => (applyOutcome q sc.1 sc.2).1) p

/-- Modelled from the spec: progression of a freshly created player — XP 0,
  level 1, empty achievements (§6 createEntity). -/
def initialProgression : PlayerProgression :=
  { xp := 0
    level := 1
    totalDecisions := 0
    successfulDecisions := 0
    achievements := []
    categoryCounts := [] }

/-- Modelled from the spec: the three simulation states (§4.3). -/
inductive Status where
  | awaitingDecision
  | phaseComplete
  | gameComplete
  deriving Repr, DecidableEq

/-- Modelled from the spec: the per-player engine state — entity MetricSet,
  PlayerProgression, and SimulationCursor (current year, per-phase decision
  position, machine state) (§3, §4.3). -/
structure EngineState where
  metrics : MetricSet
  progression : PlayerProgression
  year : Nat
  pos : Nat
  status : Status
  deriving DecidableEq

/-- Modelled from the spec: the error taxonomy (§7). -/
inductive EngineError where
  | invalidChoiceIndex
  | noCurrentScenario
  | unknownPlayer
  | gameAlreadyComplete
  deriving Repr, DecidableEq

/-- Modelled from the spec: the outcome `submitDecision` returns
  synchronously (§6). -/
structure DecisionOutcome where
  newMetrics : MetricSet
  outcomeScore : ℚ
  xpGained : Nat
  leveledUp : Bool
  newAchievements : List String
  phaseComplete : Bool
  gameComplete : Bool
  deriving DecidableEq

/-- Fixed number of decisions per year in the supply-chain variant, shown as
  `Decision {n}/6` by `ProgressIndicator` in `App.js`. -/
def decisionsPerYear : Nat := 6

/-- Fixed number of years, from the `year < 5` branch of `YearEndReport` and
  the "all 5 years" completion screen in `App.js`. -/
def numYears : Nat := 5

/-- Modelled from the spec: `submitDecision` for one player's engine state —
  check-then-act: every validation failure is detected before any mutation,
  and the returned state is the unchanged input state on error (§4.3, §6,
  §7).  On success exactly one resolver and one tracker invocation occur and
  the cursor advances, rolling into `phaseComplete` when the year's quota is
  exhausted. -/
def submitDecision (catalog : List Scenario) (s : EngineState) (choiceIndex : Nat) :
    EngineState × Except EngineError DecisionOutcome :=
  match s.status with
  | Status.gameComplete => (s, Except.error EngineError.gameAlreadyComplete)
  | Status.phaseComplete => (s, Except.error EngineError.noCurrentScenario)
  | Status.awaitingDecision =>
    match catalog.get? s.pos with
    | none => (s, Except.error EngineError.noCurrentScenario)
    | some scen =>
      match scen.choices.get? choiceIndex with
      | none => (s, Except.error EngineError.invalidChoiceIndex)
      | some choice =>
        let r := resolve s.metrics choice
        let pr := applyOutcome s.progression r.2 scen.decision_type
        let newPos := s.pos + 1
        let yearDone := decide (decisionsPerYear ≤ newPos)
        ({ metrics := r.1
           progression := pr.1
           year := s.year
           pos := newPos
           status := if decisionsPerYear ≤ newPos then Status.phaseComplete
                     else Status.awaitingDecision },
         Except.ok
           { newMetrics := r.1
             outcomeScore := r.2
             xpGained := pr.2.xpGained
             leveledUp := pr.2.leveledUp
             newAchievements := pr.2.newAchievements
             phaseComplete := yearDone
             gameComplete := false })

/-- Modelled from the spec: the explicit advance-phase action out of
  `PhaseComplete` — back to `AwaitingDecision` while phases remain, to the
  terminal `GameComplete` once the phase limit is reached; any other state
  is left untouched (§4.3, §6). -/
def advancePhase (s : EngineState) : EngineState :=
  match s.status with
  | Status.phaseComplete =>
      if s.year < numYears then
        { s with year := s.year + 1, pos := 0, status := Status.awaitingDecision }
      else
        { s with status := Status.gameComplete }
  | _ => s

/-- Modelled from the spec: engine state of a freshly created entity — first
  scenario pending, year 1, position 0 (§6 createEntity). -/
def initialEngineState (m : MetricSet) : EngineState :=
  { metrics := m
    progression := initialProgression
    year := 1
    pos := 0
    status := Status.awaitingDecision }

/-- Modelled from the spec: look a player up in the keyed store (§9). -/
def lookupReg : List (Nat × EngineState) → Nat → Option EngineState
  | [], _ => none
  | (k, v) :: rest, pid => if k = pid then some v else lookupReg rest pid

/-- Modelled from the spec: replace the first entry for a player in the
  keyed store (§9). -/
def updateReg : List (Nat × EngineState) → Nat → EngineState → List (Nat × EngineState)
  | [], _, _ => []
  | (k, v) :: rest, pid, s =>
      if k = pid then (k, s) :: rest else (k, v) :: updateReg rest pid s

/-- Modelled from the spec: `submitDecision` at the registry level — an
  unknown player id fails with `UnknownPlayer` before anything else (§7). -/
def submitDecisionReg (catalog : List Scenario) (reg : List (Nat × EngineState))
    (pid choiceIndex : Nat) :
    List (Nat × EngineState) × Except EngineError DecisionOutcome :=
  match lookupReg reg pid with
  | none => (reg, Except.error EngineError.unknownPlayer)
  | some s =>
      let sr := submitDecision catalog s choiceIndex
      (updateReg reg pid sr.1, sr.2)

/-- Modelled from the spec: a LeaderboardEntry is a read-only projection of a
  player's identity, progression and summary score (§3), carrying the fields
  the leaderboard view in `App.js` renders plus the documented tie-break
  keys (§4.4). -/
structure LeaderboardEntry where
  company_name : String
  player_name : String
  total_score : ℚ
  xp : Nat
  createdAt : Nat
  deriving Repr, DecidableEq

/-- Modelled from the spec: the ranking order — descending by total score
  (the single declared primary key), tie-broken descending by experience
  points, then ascending by creation time (§4.4). -/
def rankLE (a b : LeaderboardEntry) : Prop :=
  b.total_score < a.total_score ∨
    (a.total_score = b.total_score ∧
      (b.xp < a.xp ∨ (a.xp = b.xp ∧ a.createdAt ≤ b.createdAt)))

instance : DecidableRel rankLE := fun a b => by
  unfold rankLE
  infer_instance

/-- Modelled from the spec: the Leaderboard Ranker — a pure sort of the
  entries under the declared order (§4.4). -/
def rank (l : List LeaderboardEntry) : List LeaderboardEntry :=
  l.insertionSort rankLE

/-- Embedded from `App.js` (`getDecisionIcon`): the icon shown for each
  supply-chain decision type, with the `❓` fallback for unknown types. -/
def getDecisionIcon (decisionType : String) : String :=
  if decisionType = "factory_location" then "🏭"
  else if decisionType = "raw_materials" then "📦"
  else if decisionType = "shipping_method" then "🚢"
  else if decisionType = "employee_count" then "👥"
  else if decisionType = "salary" then "💰"
  else if decisionType = "marketing_budget" then "📢"
  else "❓"

/-- The fixed order of a year's six decisions in the supply-chain variant,
  as keyed by `getDecisionIcon` and displayed left to right under the
  progress bar in `App.js`. -/
def decisionOrder : List String :=
  ["factory_location", "raw_materials", "shipping_method",
   "employee_count", "salary", "marketing_budget"]

/-- The per-phase decision position the interface reports: the backend's
  `current_decision` field, rendered by `ProgressIndicator` as
  `Decision {currentDecision}/6`, is one past the number of resolved
  decisions. -/
def reportedDecision (s : EngineState) : Nat := s.pos + 1

/-- Modelled from the spec: the `year_complete` flag of the read-only
  snapshot, driving the "Year N Complete!" branch in `App.js` (§6
  getState). -/
def yearCompleteFlag (s : EngineState) : Bool := decide (s.status = Status.phaseComplete)

/-- Embedded from `App.js` (`handleDecision`): the fixed delay, in
  milliseconds, for which the decision result is shown before the game
  state is refetched — the literal second argument of its `setTimeout`. -/
def decisionResultDelayMs : Nat := 5000

/-- Modelled from the spec: the read-only snapshot `getState` returns (§6). -/
structure Snapshot where
  progression : PlayerProgression
  metrics : MetricSet
  currentScenario : Option Scenario
  phaseComplete : Bool
  gameComplete : Bool

/-- Modelled from the spec: `getState(playerId)` — a read-only projection of
  the engine state (§6). -/
def getState (catalog : List Scenario) (s : EngineState) : Snapshot :=
  { progression := s.progression
    metrics := s.metrics
    currentScenario :=
      match s.status with
      | Status.awaitingDecision => catalog.get? s.pos
      | _ => none
    phaseComplete := yearCompleteFlag s
    gameComplete := decide (s.status = Status.gameComplete)
  }

/-- The UI's timed refresh (`refreshGameState` after the `setTimeout` in
  `handleDecision`): it only reads a snapshot, pairing the untouched engine
  state with the view. -/
def uiRefresh (catalog : List Scenario) (s : EngineState) : EngineState × Snapshot :=
  (s, getState catalog s)

/-- Engine state once the UI handler's delayed refresh has fired: the
  decision is submitted, then the refresh reads the state back. -/
def handlerStateAfterRefresh (catalog : List Scenario) (s : EngineState) (i : Nat) :
    EngineState :=
  (uiRefresh catalog (submitDecision catalog s i).1).1

/-- Engine state right after the decision is submitted, before (or without)
  the UI's 5000 ms result display. -/
def handlerStateBeforeRefresh (catalog : List Scenario) (s : EngineState) (i : Nat) :
    EngineState :=
  (submitDecision catalog s i).1

/-- The supply-chain indicator declarations: profit in dollars, unbounded
  either way, higher is better, worth 40% of the score at a 0.1%-per-dollar
  scale; pollution, non-negative, lower is better, worth 30%; employee
  treatment, a percentage clamped to [0,100], higher is better, worth 30%.
  Weights are the published breakdown in `YearEndReport`
  ("Profit (40%) + Environmental Impact (30%) + Employee Treatment (30%)");
  bounds and polarities are modelled from the spec (§3, §4.1) and from the
  "Higher is better"/"Lower is better" captions in `MetricsDisplay`. -/
def profitSpec : IndicatorSpec :=
  { name := "profit", higherIsBetter := true, lo := none, hi := none,
    weight := 2/5, scale := 1/1000 }

/-- Pollution indicator declaration; see `profitSpec`. -/
def pollutionSpec : IndicatorSpec :=
  { name := "pollution", higherIsBetter := false, lo := some 0, hi := none,
    weight := 3/10, scale := 1 }

/-- Employee-treatment indicator declaration; see `profitSpec`. -/
def employeeTreatmentSpec : IndicatorSpec :=
  { name := "employee_treatment", higherIsBetter := true, lo := some 0, hi := some 100,
    weight := 3/10, scale := 1 }

/-- The supply-chain starting MetricSet of the worked scenario in the spec:
  profit 0, pollution 0, employee treatment 50 (§8). -/
def startingMetrics : MetricSet :=
  [{ info := profitSpec, value := 0 },
   { info := pollutionSpec, value := 0 },
   { info := employeeTreatmentSpec, value := 50 }]

/-- Modelled from the spec: a concrete six-scenario supply-chain year in the
  fixed decision order; scenario content is external, these templates stand
  in for the catalog (§3 Scenario Catalog).  The first choice of the first
  scenario carries the worked example's consequences
  `{profit:+1000, pollution:+5}` (§8). -/
def supplyChainCatalog : List Scenario :=
  [⟨"Factory Location", "factory_location",
     [⟨"Build overseas", [("profit", 1000), ("pollution", 5)]⟩,
      ⟨"Build locally", [("profit", 200), ("employee_treatment", 10)]⟩]⟩,
   ⟨"Raw Materials", "raw_materials",
     [⟨"Cheapest supplier", [("profit", 500), ("pollution", 10)]⟩,
      ⟨"Certified supplier", [("profit", 100), ("pollution", -5)]⟩]⟩,
   ⟨"Shipping Method", "shipping_method",
     [⟨"Air freight", [("profit", 300), ("pollution", 20)]⟩,
      ⟨"Sea freight", [("profit", 150), ("pollution", 5)]⟩]⟩,
   ⟨"Employee Count", "employee_count",
     [⟨"Lean staffing", [("profit", 400), ("employee_treatment", -10)]⟩,
      ⟨"Full staffing", [("profit", 100), ("employee_treatment", 10)]⟩]⟩,
   ⟨"Salary", "salary",
     [⟨"Minimum wage", [("profit", 300), ("employee_treatment", -15)]⟩,
      ⟨"Living wage", [("profit", -100), ("employee_treatment", 20)]⟩]⟩,
   ⟨"Marketing Budget", "marketing_budget",
     [⟨"Aggressive campaign", [("profit", 600), ("pollution", 2)]⟩,
      ⟨"Modest campaign", [("profit", 200)]⟩]⟩]

/-- A declared range is consistent: when both bounds are present the lower
  one does not exceed the upper one. -/
def BoundsOK (i : IndicatorSpec) : Prop :=
  ∀ l h, i.lo = some l → i.hi = some h → l ≤ h

/-- An indicator value lies within its declared range; an absent bound
  imposes nothing on that side. -/
def InDeclaredRange (ind : Metric) : Prop :=
  (∀ l, ind.info.lo = some l → l ≤ ind.value) ∧
  (∀ h, ind.info.hi = some h → ind.value ≤ h)

/-- A single employee-treatment metric used to instantiate range claims. -/
def demoMetric : Metric := { info := employeeTreatmentSpec, value := 50 }

/-- Rename every indicator of a MetricSet, leaving all declared attributes
  and values untouched; used to state that scoring never special-cases
  indicator names. -/
def renameMetrics (f : String → String) (m : MetricSet) : MetricSet :=
  m.map (fun ind => { ind with info := { ind.info with name := f ind.info.name } })

/-- The cursor invariant of the supply-chain state machine: while a decision
  is pending the per-phase position is strictly below the quota, and a
  completed phase or game has consumed exactly the quota. -/
def WFCursor (s : EngineState) : Prop :=
  (s.status = Status.awaitingDecision → s.pos < decisionsPerYear) ∧
  (s.status = Status.phaseComplete → s.pos = decisionsPerYear) ∧
  (s.status = Status.gameComplete → s.pos = decisionsPerYear)

/-- A player sitting at `PhaseComplete` after the six decisions of year 1. -/
def demoPhaseCompleteState : EngineState :=
  { metrics := startingMetrics
    progression := initialProgression
    year := 1
    pos := 6
    status := Status.phaseComplete }

/-- A player in the terminal `GameComplete` state after five years. -/
def demoGameCompleteState : EngineState :=
  { metrics := startingMetrics
    progression := initialProgression
    year := 5
    pos := 6
    status := Status.gameComplete }

/-- A choice that mentions no indicator at all. -/
def noopChoice : Choice := { label := "noop", consequences := [] }

theorem clampTo_le_hi (lo : Option ℚ) (h v : ℚ) : clampTo lo (some h) v ≤ h := by
  cases lo <;> simp [clampTo]

theorem le_clampTo_lo (l : ℚ) (hi : Option ℚ) (v : ℚ)
    (hc : ∀ h, hi = some h → l ≤ h) : l ≤ clampTo (some l) hi v := by
  cases hi with
  | none => simp [clampTo]
  | some h =>
      have hlh : l ≤ h := hc h rfl
      simp only [clampTo]
      exact le_min hlh (le_max_left l v)

/-- Every metric produced by `applyChoice` is the clamped update of a metric
  of the input set, with the same static declaration. -/
theorem mem_applyChoice {conseq : List (String × ℚ)} {m : MetricSet} {ind : Metric}
    (hmem : ind ∈ applyChoice conseq m) :
    ∃ orig ∈ m, ind = { orig with value := clampTo orig.info.lo orig.info.hi (orig.value + deltaFor conseq orig.info.name) } := by
  obtain ⟨orig, ho, he⟩ := List.mem_map.mp hmem
  exact ⟨orig, ho, he.symm⟩

/-- C1: from metrics `{profit:0, pollution:0, employee_treatment:50}`,
  resolving the choice with consequences `{profit:+1000, pollution:+5}`
  yields `{profit:1000, pollution:5, employee_treatment:50}` — each declared
  delta is added to its matching indicator and the unmentioned
  `employee_treatment` indicator is unchanged — and the player's
  total-decisions counter goes from 0 to 1. -/
theorem c1_worked_scenario :
    (submitDecision supplyChainCatalog (initialEngineState startingMetrics) 0).1.metrics =
      [{ info := profitSpec, value := 1000 },
       { info := pollutionSpec, value := 5 },
       { info := employeeTreatmentSpec, value := 50 }] ∧
    initialProgression.totalDecisions = 0 ∧
    (submitDecision supplyChainCatalog (initialEngineState startingMetrics) 0).1.progression.totalDecisions = 1 := by
  refine ⟨?_, rfl, ?_⟩
  · show applyChoice [("profit", 1000), ("pollution", 5)] startingMetrics = _
    simp [applyChoice, startingMetrics, profitSpec, pollutionSpec, employeeTreatmentSpec,
      deltaFor, clampTo]
    norm_num [min_def, max_def]
  · rfl

/-- C2: after `resolve`, every indicator with a consistently declared range
  lies within that range — percentage-type indicators stay within [0,100]
  and inherently non-negative indicators, declared with lower bound 0 and no
  upper bound, stay at or above 0. -/
theorem c2_resolve_respects_bounds (m : MetricSet) (c : Choice) (ind : Metric)
    (hmem : ind ∈ (resolve m c).1) (hb : BoundsOK ind.info) : InDeclaredRange ind := by
  obtain ⟨orig, -, he⟩ := mem_applyChoice hmem
  subst he
  constructor
  · intro l hl
    show l ≤ clampTo orig.info.lo orig.info.hi _
    rw [show orig.info.lo = some l from hl]
    exact le_clampTo_lo l orig.info.hi _ (fun h hh => hb l h hl hh)
  · intro h hh
    show clampTo orig.info.lo orig.info.hi _ ≤ h
    rw [show orig.info.hi = some h from hh]
    exact clampTo_le_hi orig.info.lo h _

/-- Witness for C2: the employee-treatment indicator of a singleton metric
  set, after resolving a no-op choice, is within its declared [0,100]
  range. -/
theorem c2_resolve_respects_bounds_witness :
    InDeclaredRange { demoMetric with value := clampTo demoMetric.info.lo demoMetric.info.hi (demoMetric.value + deltaFor noopChoice.consequences demoMetric.info.name) } :=
  c2_resolve_respects_bounds [demoMetric] noopChoice _ (List.Mem.head _)
    (by intro l h hl hh
        simp only [demoMetric, employeeTreatmentSpec, Option.some.injEq] at hl hh
        subst hl
        subst hh
        decide)

/-- `submitDecision` is check-then-act: whenever it reports an error, the
  returned engine state is the unchanged input state. -/
theorem submitDecision_error_unchanged (catalog : List Scenario) (s : EngineState) (i : Nat)
    (e : EngineError) (he : (submitDecision catalog s i).2 = Except.error e) :
    (submitDecision catalog s i).1 = s := by
  obtain ⟨mt, pr, yr, pos, st⟩ := s
  cases st with
  | phaseComplete => rfl
  | gameComplete => rfl
  | awaitingDecision =>
      simp only [submitDecision] at he ⊢
      split at he
      · rfl
      · split at he
        · rfl
        · exact absurd he (by simp)

/-- Looking up a player and writing back the very state found leaves the
  registry unchanged. -/
theorem updateReg_lookup_self (reg : List (Nat × EngineState)) (pid : Nat) (s : EngineState)
    (h : lookupReg reg pid = some s) : updateReg reg pid s = reg := by
  induction reg with
  | nil => rfl
  | cons kv rest ih =>
      obtain ⟨k, v⟩ := kv
      by_cases hk : k = pid
      · simp only [lookupReg, if_pos hk] at h
        simp only [updateReg, if_pos hk, Option.some.injEq] at *
        rw [h]
      · simp only [lookupReg, if_neg hk] at h
        simp only [updateReg, if_neg hk]
        rw [ih h]

/-- C3: a decision submitted while no scenario is pending fails with
  `NoCurrentScenario` (from `PhaseComplete`) or `GameAlreadyComplete` (from
  the terminal state) and returns the player's state — MetricSet,
  PlayerProgression and cursor — untouched; every error of the taxonomy is
  raised before any mutation, so an erroring call changes neither the
  player's state nor any entry of the player registry, and an unknown
  player id fails with `UnknownPlayer`. -/
theorem c3_errors_no_mutation (catalog : List Scenario) (s : EngineState) (i : Nat) :
    (s.status = Status.phaseComplete →
      submitDecision catalog s i = (s, Except.error EngineError.noCurrentScenario)) ∧
    (s.status = Status.gameComplete →
      submitDecision catalog s i = (s, Except.error EngineError.gameAlreadyComplete)) ∧
    (∀ e, (submitDecision catalog s i).2 = Except.error e →
      (submitDecision catalog s i).1 = s) ∧
    (∀ reg pid, lookupReg reg pid = none →
      submitDecisionReg catalog reg pid i = (reg, Except.error EngineError.unknownPlayer)) ∧
    (∀ reg pid e, (submitDecisionReg catalog reg pid i).2 = Except.error e →
      (submitDecisionReg catalog reg pid i).1 = reg) := by
  refine ⟨?_, ?_, submitDecision_error_unchanged catalog s i, ?_, ?_⟩
  · intro h
    simp [submitDecision, h]
  · intro h
    simp [submitDecision, h]
  · intro reg pid h
    simp [submitDecisionReg, h]
  · intro reg pid e he
    unfold submitDecisionReg at he ⊢
    cases hlk : lookupReg reg pid with
    | none => rfl
    | some s0 =>
        rw [hlk] at he
        simp only at he
        show updateReg reg pid (submitDecision catalog s0 i).1 = reg
        rw [submitDecision_error_unchanged catalog s0 i e he]
        exact updateReg_lookup_self reg pid s0 hlk

/-- Witness for C3: a player sitting at `PhaseComplete` gets
  `NoCurrentScenario` and an unchanged state. -/
theorem c3_errors_no_mutation_witness :
    submitDecision supplyChainCatalog demoPhaseCompleteState 0 =
      (demoPhaseCompleteState, Except.error EngineError.noCurrentScenario) :=
  (c3_errors_no_mutation supplyChainCatalog demoPhaseCompleteState 0).1 rfl

theorem applyOutcome_xp (p : PlayerProgression) (s : ℚ) (c : String) :
    (applyOutcome p s c).1.xp = p.xp + xpGain s := rfl

theorem applyOutcome_level (p : PlayerProgression) (s : ℚ) (c : String) :
    (applyOutcome p s c).1.level = levelForXp ((applyOutcome p s c).1.xp) := rfl

theorem applyOutcome_achievements (p : PlayerProgression) (s : ℚ) (c : String) :
    p.achievements <+: (applyOutcome p s c).1.achievements :=
  List.prefix_append _ _

theorem xpGain_pos (s : ℚ) : 0 < xpGain s :=
  lt_of_lt_of_le (by decide : 0 < xpMinFloor) (le_max_left _ _)

theorem levelForXp_mono {a b : Nat} (h : a ≤ b) : levelForXp a ≤ levelForXp b :=
  Nat.add_le_add_right (Nat.div_le_div_right h) 1

/-- C4: after each `applyOutcome` the level is recomputed fresh from
  cumulative XP via the fixed formula, never incremented: `leveledUp` holds
  exactly when the recomputed level exceeds the prior level, and a single
  decision whose XP gain crosses two thresholds takes a fresh level-1 player
  straight to level 3 rather than being capped at level 2. -/
theorem c4_level_recomputed_fresh (p : PlayerProgression) (s : ℚ) (c : String) :
    (applyOutcome p s c).1.level = levelForXp ((applyOutcome p s c).1.xp) ∧
    ((applyOutcome p s c).2.leveledUp = true ↔ p.level < (applyOutcome p s c).1.level) ∧
    initialProgression.level = 1 ∧
    (applyOutcome initialProgression 100 "salary").2.leveledUp = true ∧
    (applyOutcome initialProgression 100 "salary").1.level = 3 := by
  refine ⟨rfl, decide_eq_true_iff, rfl, ?_, ?_⟩
  · have hxp : xpGain 100 = 200 := by
      norm_num [xpGain, xpMinFloor]
      decide
    show decide (initialProgression.level < levelForXp (initialProgression.xp + xpGain 100)) = true
    rw [hxp]
    decide
  · show levelForXp (initialProgression.xp + xpGain 100) = 3
    have hxp : xpGain 100 = 200 := by
      norm_num [xpGain, xpMinFloor]
      decide
    rw [hxp]
    decide

/-- C5: across any sequence of `applyOutcome` calls, progression is
  monotone — XP strictly increases on every decision thanks to the minimum
  XP floor, the level (kept consistent with cumulative XP) never decreases,
  and the achievement list only ever grows by appending, so an unlocked
  achievement is never removed. -/
theorem c5_progression_monotone (p : PlayerProgression) (l : List (ℚ × String))
    (hl : p.level = levelForXp p.xp) :
    p.xp ≤ (runOutcomes p l).xp ∧
    (l ≠ [] → p.xp < (runOutcomes p l).xp) ∧
    p.level ≤ (runOutcomes p l).level ∧
    p.achievements <+: (runOutcomes p l).achievements := by
  induction l generalizing p with
  | nil =>
      exact ⟨le_refl _, fun h => absurd rfl h, le_refl _, List.prefix_rfl⟩
  | cons x xs ih =>
      have hstep : runOutcomes p (x :: xs) = runOutcomes (applyOutcome p x.1 x.2).1 xs := rfl
      set p1 := (applyOutcome p x.1 x.2).1 with hp1
      have hl1 : p1.level = levelForXp p1.xp := applyOutcome_level p x.1 x.2
      obtain ⟨hxle, -, hlev, hach⟩ := ih p1 hl1
      have hxp1 : p.xp < p1.xp := by
        rw [hp1, applyOutcome_xp]
        exact Nat.lt_add_of_pos_right (xpGain_pos x.1)
      refine ⟨?_, ?_, ?_, ?_⟩
      · rw [hstep]
        exact le_trans (le_of_lt hxp1) hxle
      · intro
        rw [hstep]
        exact lt_of_lt_of_le hxp1 hxle
      · rw [hstep]
        calc p.level = levelForXp p.xp := hl
          _ ≤ levelForXp p1.xp := levelForXp_mono (le_of_lt hxp1)
          _ = p1.level := hl1.symm
          _ ≤ (runOutcomes p1 xs).level := hlev
      · rw [hstep]
        exact (applyOutcome_achievements p x.1 x.2).trans hach

/-- Witness for C5: one decision at score 80 strictly raises a fresh
  player's XP while level and achievements never regress. -/
theorem c5_progression_monotone_witness :
    initialProgression.xp < (runOutcomes initialProgression [(80, "salary")]).xp ∧
    initialProgression.level ≤ (runOutcomes initialProgression [(80, "salary")]).level ∧
    initialProgression.achievements <+: (runOutcomes initialProgression [(80, "salary")]).achievements :=
  ⟨(c5_progression_monotone initialProgression [(80, "salary")] rfl).2.1 (by simp),
   (c5_progression_monotone initialProgression [(80, "salary")] rfl).2.2.1,
   (c5_progression_monotone initialProgression [(80, "salary")] rfl).2.2.2⟩

theorem clamp0100_nonneg (v : ℚ) : 0 ≤ clamp0100 v :=
  le_min (by norm_num) (le_max_left 0 v)

theorem clamp0100_le_100 (v : ℚ) : clamp0100 v ≤ 100 :=
  min_le_left 100 _

theorem componentScore_nonneg (ind : Metric) : 0 ≤ componentScore ind := by
  unfold componentScore
  split
  · exact clamp0100_nonneg _
  · have := clamp0100_le_100 (ind.value * ind.info.scale)
    linarith

theorem componentScore_le_100 (ind : Metric) : componentScore ind ≤ 100 := by
  unfold componentScore
  split
  · exact clamp0100_le_100 _
  · have := clamp0100_nonneg (ind.value * ind.info.scale)
    linarith

/-- The weighted component sum over any metric list with non-negative
  weights is non-negative and at most 100 times the total weight. -/
theorem weightedSum_bounds (l : List Metric)
    (hw : ∀ ind ∈ l, 0 ≤ ind.info.weight) :
    0 ≤ scoreOfMetrics l ∧
    scoreOfMetrics l ≤ 100 * (l.map (fun ind => ind.info.weight)).sum := by
  induction l with
  | nil => simp [scoreOfMetrics]
  | cons x xs ih =>
      have hwx : 0 ≤ x.info.weight := hw x (List.mem_cons_self x xs)
      have hrest := ih (fun ind hi => hw ind (List.mem_cons_of_mem x hi))
      unfold scoreOfMetrics at hrest ⊢
      simp only [List.map_cons, List.sum_cons]
      constructor
      · have h1 : 0 ≤ x.info.weight * componentScore x :=
          mul_nonneg hwx (componentScore_nonneg x)
        linarith [hrest.1]
      · have h2 : x.info.weight * componentScore x ≤ x.info.weight * 100 :=
          mul_le_mul_of_nonneg_left (componentScore_le_100 x) hwx
        have h3 := hrest.2
        ring_nf
        ring_nf at h2 h3
        linarith

/-- `applyChoice` only rewrites values: the mapped indicator declarations,
  and in particular the weights, are untouched. -/
theorem applyChoice_weights (conseq : List (String × ℚ)) (m : MetricSet) :
    (applyChoice conseq m).map (fun ind => ind.info.weight) =
      m.map (fun ind => ind.info.weight) := by
  unfold applyChoice
  rw [List.map_map]
  rfl

theorem mem_applyChoice_weight_nonneg (conseq : List (String × ℚ)) (m : MetricSet)
    (hw : ∀ ind ∈ m, 0 ≤ ind.info.weight) :
    ∀ ind ∈ applyChoice conseq m, 0 ≤ ind.info.weight := by
  intro ind hmem
  obtain ⟨orig, ho, he⟩ := mem_applyChoice hmem
  subst he
  exact hw orig ho

/-- C6: for every metric set whose declared weights are non-negative and sum
  to 1, the outcome score `resolve` returns lies in [0,100] and is exactly
  the declared-weight combination of the post-decision per-indicator
  components, each taken relative to its declared polarity; the scoring is
  invariant under renaming indicators, so no indicator name is ever
  special-cased; and the supply-chain declarations carry the published
  breakdown — profit 40% higher-is-better, pollution 30% lower-is-better,
  employee treatment 30% higher-is-better. -/
theorem c6_score_weighted_in_range (m : MetricSet) (c : Choice)
    (hw : ∀ ind ∈ m, 0 ≤ ind.info.weight)
    (hsum : (m.map (fun ind => ind.info.weight)).sum = 1) :
    (0 ≤ (resolve m c).2 ∧ (resolve m c).2 ≤ 100) ∧
    (resolve m c).2 =
      ((applyChoice c.consequences m).map (fun ind => ind.info.weight * componentScore ind)).sum ∧
    (∀ f, scoreOfMetrics (renameMetrics f m) = scoreOfMetrics m) ∧
    profitSpec.weight = 2/5 ∧ profitSpec.higherIsBetter = true ∧
    pollutionSpec.weight = 3/10 ∧ pollutionSpec.higherIsBetter = false ∧
    employeeTreatmentSpec.weight = 3/10 ∧ employeeTreatmentSpec.higherIsBetter = true := by
  have hw2 := mem_applyChoice_weight_nonneg c.consequences m hw
  have hb := weightedSum_bounds (applyChoice c.consequences m) hw2
  have hsum2 : ((applyChoice c.consequences m).map (fun ind => ind.info.weight)).sum = 1 := by
    rw [applyChoice_weights]
    exact hsum
  refine ⟨⟨hb.1, ?_⟩, rfl, ?_, rfl, rfl, rfl, rfl, rfl, rfl⟩
  · have := hb.2
    rw [hsum2] at this
    show scoreOfMetrics (applyChoice c.consequences m) ≤ 100
    linarith
  · intro f
    unfold scoreOfMetrics renameMetrics
    rw [List.map_map]
    rfl

/-- Witness for C6: the supply-chain starting metrics have non-negative
  weights summing to 1, and their resolved no-op score is within [0,100]. -/
theorem c6_score_weighted_in_range_witness :
    (0 ≤ (resolve startingMetrics noopChoice).2 ∧ (resolve startingMetrics noopChoice).2 ≤ 100) ∧
    (resolve startingMetrics noopChoice).2 =
      ((applyChoice noopChoice.consequences startingMetrics).map
        (fun ind => ind.info.weight * componentScore ind)).sum ∧
    (∀ f, scoreOfMetrics (renameMetrics f startingMetrics) = scoreOfMetrics startingMetrics) ∧
    profitSpec.weight = 2/5 ∧ profitSpec.higherIsBetter = true ∧
    pollutionSpec.weight = 3/10 ∧ pollutionSpec.higherIsBetter = false ∧
    employeeTreatmentSpec.weight = 3/10 ∧ employeeTreatmentSpec.higherIsBetter = true :=
  c6_score_weighted_in_range startingMetrics noopChoice
    (by norm_num [startingMetrics, List.forall_mem_cons, profitSpec, pollutionSpec,
      employeeTreatmentSpec])
    (by norm_num [startingMetrics, profitSpec, pollutionSpec, employeeTreatmentSpec])

/-- C7: the simulation spans exactly 5 years: from `PhaseComplete` the
  explicit advance-phase action returns to `AwaitingDecision` (with the year
  advanced) only while the phase limit is not reached, reaching the limit
  transitions to the terminal `GameComplete`, and in `GameComplete` the
  advance action is inert and every further decision submission fails with
  `GameAlreadyComplete`. -/
theorem c7_five_phases_terminal (catalog : List Scenario) (s : EngineState) (i : Nat) :
    numYears = 5 ∧
    (s.status = Status.phaseComplete → s.year < numYears →
      (advancePhase s).status = Status.awaitingDecision ∧ (advancePhase s).year = s.year + 1) ∧
    (s.status = Status.phaseComplete → numYears ≤ s.year →
      (advancePhase s).status = Status.gameComplete) ∧
    (s.status = Status.gameComplete → advancePhase s = s) ∧
    (s.status = Status.gameComplete →
      submitDecision catalog s i = (s, Except.error EngineError.gameAlreadyComplete)) := by
  refine ⟨rfl, ?_, ?_, ?_, ?_⟩
  · intro h hy
    constructor <;> simp [advancePhase, h, hy]
  · intro h hy
    simp [advancePhase, h, Nat.not_lt.mpr hy]
  · intro h
    simp [advancePhase, h]
  · intro h
    simp [submitDecision, h]

/-- Witness for C7: a completed five-year game rejects a further decision
  with `GameAlreadyComplete` and an unchanged state. -/
theorem c7_five_phases_terminal_witness :
    submitDecision supplyChainCatalog demoGameCompleteState 0 =
      (demoGameCompleteState, Except.error EngineError.gameAlreadyComplete) :=
  (c7_five_phases_terminal supplyChainCatalog demoGameCompleteState 0).2.2.2.2 rfl

instance : IsTrans LeaderboardEntry rankLE := by
  constructor
  intro a b c hab hbc
  unfold rankLE at *
  rcases hab with h1 | ⟨he1, h2⟩ <;> rcases hbc with h3 | ⟨he3, h4⟩
  · left
    linarith
  · left
    linarith
  · left
    linarith
  · right
    refine ⟨by linarith, ?_⟩
    rcases h2 with hx1 | ⟨hex1, ht1⟩ <;> rcases h4 with hx3 | ⟨hex3, ht3⟩
    · left
      omega
    · left
      omega
    · left
      omega
    · right
      exact ⟨by omega, by omega⟩

instance : IsTotal LeaderboardEntry rankLE := by
  constructor
  intro a b
  unfold rankLE
  rcases lt_trichotomy a.total_score b.total_score with h | h | h
  · right
    left
    exact h
  · rcases lt_trichotomy a.xp b.xp with h2 | h2 | h2
    · right
      right
      exact ⟨h.symm, Or.inl h2⟩
    · rcases le_total a.createdAt b.createdAt with h3 | h3
      · left
        right
        exact ⟨h, Or.inr ⟨h2, h3⟩⟩
      · right
        right
        exact ⟨h.symm, Or.inr ⟨h2.symm, h3⟩⟩
    · left
      right
      exact ⟨h, Or.inl h2⟩
  · left
    left
    exact h

/-- C8: `rank` is a pure function of its input — two calls on unchanged
  player state return identical sequences — and its output is a permutation
  of the input entries sorted under the declared descending
  primary-key-with-tie-break order; being a plain function of a snapshot it
  mutates neither PlayerProgression nor MetricSet. -/
theorem c8_rank_pure_deterministic (l : List LeaderboardEntry) :
    rank l = rank l ∧
    List.Sorted rankLE (rank l) ∧
    (rank l).Perm l :=
  ⟨rfl, List.sorted_insertionSort rankLE l, List.perm_insertionSort rankLE l⟩

/-- C9: the fixed display delay between a decision result and the state
  refetch is the presentation layer's 5000 ms `setTimeout`; the engine model
  is synchronous and timer-free, so the engine state once the delayed
  refresh has fired is identical to the engine state right after the
  decision was committed — the delay (or skipping it) changes nothing
  beyond what the decision itself committed, the refresh being a pure
  read. -/
theorem c9_delay_presentation_only (catalog : List Scenario) (s : EngineState) (i : Nat) :
    decisionResultDelayMs = 5000 ∧
    handlerStateAfterRefresh catalog s i = handlerStateBeforeRefresh catalog s i ∧
    (uiRefresh catalog s).1 = s :=
  ⟨rfl, rfl, rfl⟩

/-- `submitDecision` either rejects and returns the state unchanged, or (from
  `AwaitingDecision`) advances the cursor by one decision, completing the
  phase exactly when the quota is reached. -/
theorem submitDecision_shape (catalog : List Scenario) (s : EngineState) (i : Nat) :
    (submitDecision catalog s i).1 = s ∨
    (s.status = Status.awaitingDecision ∧
      (submitDecision catalog s i).1.pos = s.pos + 1 ∧
      (submitDecision catalog s i).1.status =
        (if decisionsPerYear ≤ s.pos + 1 then Status.phaseComplete
         else Status.awaitingDecision)) := by
  obtain ⟨mt, pr, yr, pos, st⟩ := s
  cases st with
  | phaseComplete => exact Or.inl rfl
  | gameComplete => exact Or.inl rfl
  | awaitingDecision =>
      simp only [submitDecision]
      split
      · exact Or.inl rfl
      · split
        · exact Or.inl rfl
        · exact Or.inr ⟨by trivial, by trivial, by trivial⟩

/-- C10: a supply-chain year consists of exactly 6 decisions in the fixed
  order keyed by `getDecisionIcon` (factory location, raw materials,
  shipping method, employee count, salary, marketing budget): the cursor
  invariant holds initially and is preserved by decision submission and
  phase advancement, under it the reported per-phase decision position is
  always between 1 and 6, and a running game's year is complete exactly
  when all 6 decisions have been resolved. -/
theorem c10_six_decisions_fixed_order (catalog : List Scenario) (s : EngineState) (i : Nat)
    (m : MetricSet) :
    decisionsPerYear = 6 ∧
    decisionOrder.map getDecisionIcon = ["🏭", "📦", "🚢", "👥", "💰", "📢"] ∧
    WFCursor (initialEngineState m) ∧
    (WFCursor s → WFCursor (submitDecision catalog s i).1) ∧
    (WFCursor s → WFCursor (advancePhase s)) ∧
    (WFCursor s → s.status = Status.awaitingDecision →
      1 ≤ reportedDecision s ∧ reportedDecision s ≤ decisionsPerYear) ∧
    (WFCursor s → s.status ≠ Status.gameComplete →
      (yearCompleteFlag s = true ↔ s.pos = decisionsPerYear)) := by
  refine ⟨rfl, by decide, ?_, ?_, ?_, ?_, ?_⟩
  · exact ⟨fun _ => by simp [initialEngineState, decisionsPerYear],
      fun h => absurd h (by simp [initialEngineState]),
      fun h => absurd h (by simp [initialEngineState])⟩
  · intro hwf
    rcases submitDecision_shape catalog s i with h | ⟨hst, hpos, hstat⟩
    · rw [h]
      exact hwf
    · obtain ⟨h1, -, -⟩ := hwf
      have hlt : s.pos < decisionsPerYear := h1 hst
      by_cases hc : decisionsPerYear ≤ s.pos + 1
      · rw [if_pos hc] at hstat
        refine ⟨fun ha => ?_, fun _ => ?_, fun hg => ?_⟩
        · rw [hstat] at ha
          exact absurd ha (by decide)
        · rw [hpos]
          omega
        · rw [hstat] at hg
          exact absurd hg (by decide)
      · rw [if_neg hc] at hstat
        refine ⟨fun _ => ?_, fun hp => ?_, fun hg => ?_⟩
        · rw [hpos]
          omega
        · rw [hstat] at hp
          exact absurd hp (by decide)
        · rw [hstat] at hg
          exact absurd hg (by decide)
  · intro hwf
    obtain ⟨mt, pr, yr, pos, st⟩ := s
    obtain ⟨h1, h2, h3⟩ := hwf
    cases st with
    | awaitingDecision => exact ⟨h1, h2, h3⟩
    | gameComplete => exact ⟨h1, h2, h3⟩
    | phaseComplete =>
        have hp : pos = decisionsPerYear := h2 rfl
        simp only [advancePhase]
        by_cases hy : yr < numYears
        · rw [if_pos hy]
          exact ⟨fun _ => by simp [decisionsPerYear], fun h => absurd h (by simp),
            fun h => absurd h (by simp)⟩
        · rw [if_neg hy]
          exact ⟨fun h => absurd h (by simp), fun h => absurd h (by simp), fun _ => hp⟩
  · intro hwf hst
    have hlt : s.pos < decisionsPerYear := hwf.1 hst
    unfold reportedDecision
    omega
  · intro hwf hne
    unfold yearCompleteFlag
    rw [decide_eq_true_iff]
    constructor
    · exact hwf.2.1
    · intro hp
      cases hst : s.status with
      | awaitingDecision =>
          have := hwf.1 hst
          omega
      | phaseComplete => rfl
      | gameComplete => exact absurd hst hne

/-- Witness for C10: a freshly created supply-chain player reports decision
  position 1 of 6. -/
theorem c10_six_decisions_fixed_order_witness :
    1 ≤ reportedDecision (initialEngineState startingMetrics) ∧
    reportedDecision (initialEngineState startingMetrics) ≤ decisionsPerYear :=
  (c10_six_decisions_fixed_order supplyChainCatalog (initialEngineState startingMetrics) 0
      startingMetrics).2.2.2.2.2.1
    ((c10_six_decisions_fixed_order supplyChainCatalog (initialEngineState startingMetrics) 0
      startingMetrics).2.2.1)
    rfl

end CEO
